import Mathlib

/-!
Verification development for the bioio-czi reader plugin.

This file gives a shallow embedding, in Lean, of the dimension/coordinate
reconciliation and lazy chunked-array assembly engine of the repository
(`bioio_czi`): bounding-box utilities, the physical-scale resolver, the
channel-name resolver, the coordinate builder, the chunked array assembler
of the pylibczirw-mode reader, the scene listing, and the subblock
acquisition-time engine of the aicspylibczi mode.  Python dictionaries are
embedded as insertion-ordered association lists, XML documents as a tree
type with the child/descendant queries the source uses, machine floats as
rationals, and fallible code as `Except`.
-/

set_option maxRecDepth 8000

/-- Insertion-ordered association list, the embedding of a Python `dict`. -/
def dictFind {κ α : Type} [BEq κ] (m : List (κ × α)) (k : κ) : Option α :=
  (m.find? (fun p => p.1 == k)).map Prod.snd

/-- Python `k in d` on the `dict` embedding. -/
def dictMem {κ α : Type} [BEq κ] (m : List (κ × α)) (k : κ) : Bool :=
  (dictFind m k).isSome

/-- Python `d[k] = v`: replaces the value in place if the key is present
(keeping its insertion position), otherwise appends the new binding. -/
def dictSet {κ α : Type} [BEq κ] (m : List (κ × α)) (k : κ) (v : α) : List (κ × α) :=
  if (dictFind m k).isSome then m.map (fun p => if p.1 == k then (k, v) else p)
  else m ++ [(k, v)]

theorem dictFind_nil {κ α : Type} [BEq κ] (k : κ) : dictFind ([] : List (κ × α)) k = none := rfl

theorem dictFind_cons {κ α : Type} [BEq κ] (k k' : κ) (v : α) (rest : List (κ × α)) :
    dictFind ((k', v) :: rest) k = if k' == k then some v else dictFind rest k := by
  by_cases h : k' == k <;> simp [dictFind, List.find?, h]

theorem dictFind_append {κ α : Type} [BEq κ] (l1 l2 : List (κ × α)) (k : κ) :
    dictFind (l1 ++ l2) k =
      match dictFind l1 k with
      | some v => some v
      | none => dictFind l2 k := by
  induction l1 with
  | nil => simp [dictFind]
  | cons p rest ih =>
    rcases p with ⟨k', v⟩
    by_cases h : k' == k
    · simp [dictFind_cons, h, List.cons_append]
    · simpa [dictFind_cons, h, List.cons_append] using ih

/-- Embedding of `bioio_czi.bounding_box.BoundingBox`:
`Dict[str, Tuple[int, int]]`, e.g. `{'X': (0, 100), 'Y': (0, 100)}`. -/
abbrev BoundingBox := List (String × (Int × Int))

/-- Embedding of `bioio_czi.bounding_box.size`: the size of the dimension if
it is in the bounding box, otherwise `-1`. -/
def size (bounding_box : BoundingBox) (dim : String) : Int :=
  match dictFind bounding_box dim with
  | none => -1
  | some bounds => bounds.2 - bounds.1

/-- C9: for every bounding-box map and dimension label, `size` returns
`end - start` of the dimension's extent when the dimension is present, and
the sentinel `-1` when it is absent.  (The embedded `size` is a total pure
function, so it has no side effects by construction.) -/
theorem size_spec (b : BoundingBox) (d : String) :
    (dictFind b d = none → size b d = -1) ∧
    (∀ s e : Int, dictFind b d = some (s, e) → size b d = e - s) := by
  constructor
  · intro h
    simp [size, h]
  · intro s e h
    simp [size, h]

/-- Witness for C9 at concrete inputs: `Y` is absent from `{'X': (2, 5)}`
and has size `-1`; `X` is present with extent `(2, 5)` and has size `3`. -/
theorem size_spec_witness :
    size [("X", ((2 : Int), (5 : Int)))] "Y" = -1 ∧
    size [("X", ((2 : Int), (5 : Int)))] "X" = 5 - 2 :=
  ⟨(size_spec [("X", (2, 5))] "Y").1 (by rfl),
   (size_spec [("X", (2, 5))] "X").2 2 5 (by rfl)⟩

/-- Embedding of an `xml.etree.ElementTree.Element`: tag, attributes (in
document order), text content, and child elements (in document order). -/
inductive Xml where
  | node (tag : String) (attrs : List (String × String)) (text : Option String)
      (children : List Xml)

instance : Inhabited Xml := ⟨.node "" [] none []⟩

def Xml.tag : Xml → String
  | .node t _ _ _ => t

def Xml.attrs : Xml → List (String × String)
  | .node _ a _ _ => a

def Xml.text : Xml → Option String
  | .node _ _ x _ => x

def Xml.children : Xml → List Xml
  | .node _ _ _ c => c

/-- `Element.get(key)` / `element.attrib.get(key)`. -/
def Xml.attr (e : Xml) (k : String) : Option String :=
  dictFind e.attrs k

/-- The direct children carrying a given tag, in document order
(`element.findall("./Tag")`, and `element.find("Tag")` is its head). -/
def Xml.childrenTagged (e : Xml) (t : String) : List Xml :=
  e.children.filter (fun c => c.tag == t)

/-- `findall` along a path of child steps, e.g. `./A/B/C`: all elements
reached from `e` by following children with the given tags, in document
order. -/
def findPath (e : Xml) : List String → List Xml
  | [] => [e]
  | t :: rest => (e.childrenTagged t).flatMap (fun c => findPath c rest)

/-- `findall` along a path of child steps whose final step carries an
attribute predicate, e.g. `./A/B/Tag[@Key='Value']`. -/
def findPathAttr (e : Xml) (path : List String) (tag k v : String) : List Xml :=
  (findPath e path).flatMap
    (fun p => (p.childrenTagged tag).filter (fun c => c.attr k == some v))

mutual

/-- An element together with all its descendants, in document (preorder)
order. -/
def Xml.selfAndDescendants : Xml → List Xml
  | .node t a x c => .node t a x c :: descendantsOfList c

/-- The concatenated `selfAndDescendants` of a list of elements. -/
def descendantsOfList : List Xml → List Xml
  | [] => []
  | e :: rest => e.selfAndDescendants ++ descendantsOfList rest

end

/-- `findall(".//Tag1/Tag2/.../Tagn")`: for every descendant of the root
tagged `t1` (in document order), follow the remaining child steps. -/
def findDescendantPath (e : Xml) (t1 : String) (rest : List String) : List Xml :=
  ((e.children.flatMap Xml.selfAndDescendants).filter (fun d => d.tag == t1)).flatMap
    (fun d => findPath d rest)

/-- `10.0 ** e` for an integer exponent, over `ℚ`. -/
def qpow10 : Int → ℚ
  | .ofNat n => (10 : ℚ) ^ n
  | .negSucc n => 1 / (10 : ℚ) ^ (n + 1)

/-- Decimal digit test (`'0'` to `'9'`). -/
def isDigitChar (c : Char) : Bool :=
  48 ≤ c.toNat && c.toNat ≤ 57

/-- The natural number denoted by a list of decimal digit characters. -/
def digitsToNat (ds : List Char) : Nat :=
  ds.foldl (fun n c => 10 * n + (c.toNat - 48)) 0

/-- The exponent part of a float literal: an optional sign followed by at
least one digit, consuming the whole remainder. -/
def parseExpPart : List Char → Option Int
  | [] => none
  | '+' :: r => if r ≠ [] ∧ r.all isDigitChar then some (digitsToNat r : Int) else none
  | '-' :: r => if r ≠ [] ∧ r.all isDigitChar then some (-(digitsToNat r : Int)) else none
  | r => if r.all isDigitChar then some (digitsToNat r : Int) else none

/-- The unsigned mantissa (with optional fraction) and optional exponent of
a float literal, e.g. `12`, `12.5`, `.5`, `12e-3`, `1.25E2`. -/
def parseMantissaExp (cs : List Char) : Option ℚ :=
  let ip := cs.takeWhile isDigitChar
  let rest := cs.dropWhile isDigitChar
  match rest with
  | [] => if ip = [] then none else some (digitsToNat ip : ℚ)
  | '.' :: r2 =>
    let fp := r2.takeWhile isDigitChar
    let rest2 := r2.dropWhile isDigitChar
    if ip = [] ∧ fp = [] then none
    else
      let mant : ℚ := (digitsToNat ip : ℚ) + (digitsToNat fp : ℚ) / ((10 : ℚ) ^ fp.length)
      match rest2 with
      | [] => some mant
      | 'e' :: r3 => (parseExpPart r3).map (fun ex => mant * qpow10 ex)
      | 'E' :: r3 => (parseExpPart r3).map (fun ex => mant * qpow10 ex)
      | _ => none
  | 'e' :: r3 =>
    if ip = [] then none
    else (parseExpPart r3).map (fun ex => (digitsToNat ip : ℚ) * qpow10 ex)
  | 'E' :: r3 =>
    if ip = [] then none
    else (parseExpPart r3).map (fun ex => (digitsToNat ip : ℚ) * qpow10 ex)
  | _ => none

/-- Strip leading and trailing whitespace from a character list. -/
def trimChars (cs : List Char) : List Char :=
  ((cs.dropWhile (fun c => c == ' ' || c == '\t' || c == '\n' || c == '\r')).reverse.dropWhile
    (fun c => c == ' ' || c == '\t' || c == '\n' || c == '\r')).reverse

/-- Models Python `float(s)` on plain decimal literals (optional sign,
decimal mantissa, optional exponent, surrounding whitespace): `some` the
exact rational value on success, `none` where `float` raises `ValueError`.
`inf`/`nan` spellings and digit-group underscores are outside the model. -/
def pyFloat (s : String) : Option ℚ :=
  match trimChars s.toList with
  | '+' :: r => parseMantissaExp r
  | '-' :: r => (parseMantissaExp r).map Neg.neg
  | r => parseMantissaExp r


/-- The exceptions the embedded code can raise: `UnsupportedMetadataError`
(from `bioio_czi.metadata`), Python's `ValueError` (e.g. from `float`),
`AssertionError`, `KeyError` and `IndexError`. -/
inductive PyError where
  | unsupportedMetadata (msg : String)
  | valueError
  | assertionError
  | keyError
  | indexError
deriving Repr, DecidableEq

/-- `True` exactly for `UnsupportedMetadataError`. -/
def PyError.isUnsupportedMetadata : PyError → Bool
  | .unsupportedMetadata _ => true
  | _ => false

/-- Embedding of `bioio_base.types.PhysicalPixelSizes` (a named tuple with
fields, in order, `Z`, `Y`, `X`). -/
structure PhysicalPixelSizes where
  Z : Option ℚ
  Y : Option ℚ
  X : Option ℚ
deriving Repr, DecidableEq

/-- Embedding of `bioio_czi.pixel_sizes._single_physical_pixel_size`: look up
the physical pixel size for one dimension from
`./Metadata/Scaling/Items/Distance[@Id='<dimension>']`, in microns. -/
def _single_physical_pixel_size (metadata : Xml) (dimension : String)
    (allow_none : Bool) : Except PyError (Option ℚ) :=
  let scales := findPathAttr metadata ["Metadata", "Scaling", "Items"] "Distance" "Id" dimension
  match scales with
  | [sc] =>
    match ((sc.childrenTagged "Value").head?).bind Xml.text with
    | none =>
      .error (.unsupportedMetadata
        ("Could not find any distance scale for dimension '" ++ dimension ++ "'."))
    | some txt =>
      match pyFloat txt with
      | none => .error .valueError
      | some scale => .ok (some (scale / (1 / 1000000)))
  | _ =>
    if allow_none && scales.length == 0 then .ok none
    else
      .error (.unsupportedMetadata
        ("Expected 1 distance scale for dimension '" ++ dimension ++ "' but found "
          ++ toString scales.length ++ "."))

/-- Embedding of `bioio_czi.pixel_sizes.get_physical_pixel_sizes`: pixel
sizes for `Z` (optional), `Y` and `X` (required), evaluated in that order. -/
def get_physical_pixel_sizes (metadata : Xml) : Except PyError PhysicalPixelSizes :=
  match _single_physical_pixel_size metadata "Z" true with
  | .error e => .error e
  | .ok z =>
    match _single_physical_pixel_size metadata "Y" false with
    | .error e => .error e
    | .ok y =>
      match _single_physical_pixel_size metadata "X" false with
      | .error e => .error e
      | .ok x => .ok ⟨z, y, x⟩

/-- C5 (amended): case analysis of the physical-scale resolver.  Zero
matching scale-distance records yields `None` under `allow_none` and
`UnsupportedMetadata` otherwise; more than one match yields
`UnsupportedMetadata`; a single match with no `Value` element or no text
yields `UnsupportedMetadata`; a single match whose text does not parse as a
number raises `ValueError` (not `UnsupportedMetadata`); a single match with
numeric value `v` meters yields `v / 1e-6` microns. -/
theorem single_physical_pixel_size_spec (metadata : Xml) (dimension : String)
    (allow_none : Bool) (scales : List Xml)
    (hs : findPathAttr metadata ["Metadata", "Scaling", "Items"] "Distance" "Id" dimension
        = scales) :
    (scales = [] → allow_none = true →
      _single_physical_pixel_size metadata dimension allow_none = .ok none) ∧
    (scales = [] → allow_none = false →
      _single_physical_pixel_size metadata dimension allow_none =
        .error (.unsupportedMetadata
          ("Expected 1 distance scale for dimension '" ++ dimension ++ "' but found "
            ++ toString scales.length ++ "."))) ∧
    (2 ≤ scales.length →
      _single_physical_pixel_size metadata dimension allow_none =
        .error (.unsupportedMetadata
          ("Expected 1 distance scale for dimension '" ++ dimension ++ "' but found "
            ++ toString scales.length ++ "."))) ∧
    (∀ sc, scales = [sc] → ((sc.childrenTagged "Value").head?).bind Xml.text = none →
      _single_physical_pixel_size metadata dimension allow_none =
        .error (.unsupportedMetadata
          ("Could not find any distance scale for dimension '" ++ dimension ++ "'."))) ∧
    (∀ sc txt, scales = [sc] →
      ((sc.childrenTagged "Value").head?).bind Xml.text = some txt → pyFloat txt = none →
      _single_physical_pixel_size metadata dimension allow_none = .error .valueError) ∧
    (∀ sc txt v, scales = [sc] →
      ((sc.childrenTagged "Value").head?).bind Xml.text = some txt → pyFloat txt = some v →
      _single_physical_pixel_size metadata dimension allow_none =
        .ok (some (v / (1 / 1000000)))) := by
  refine ⟨?_, ?_, ?_, ?_, ?_, ?_⟩
  · intro h ha
    simp only [_single_physical_pixel_size, hs, h, ha]
    rfl
  · intro h ha
    simp only [_single_physical_pixel_size, hs, h, ha]
    simp
  · intro h
    rcases scales with _ | ⟨sc, _ | ⟨sc2, rest⟩⟩
    · simp at h
    · simp at h
    · simp only [_single_physical_pixel_size, hs]
      simp
  · intro sc h hv
    simp only [_single_physical_pixel_size, hs, h, hv]
  · intro sc txt h hv hp
    simp only [_single_physical_pixel_size, hs, h, hv, hp]
  · intro sc txt v h hv hp
    simp only [_single_physical_pixel_size, hs, h, hv, hp]

/-- `True` when the call raised `UnsupportedMetadataError`. -/
def raisesUnsupportedMetadata (r : Except PyError (Option ℚ)) : Bool :=
  match r with
  | .error e => e.isUnsupportedMetadata
  | .ok _ => false

/-- A metadata document whose single `X` scale-distance record has the
unparseable text `"abc"` in its `Value` element. -/
def exScaleUnparseable : Xml :=
  .node "ImageDocument" [] none
    [.node "Metadata" [] none
      [.node "Scaling" [] none
        [.node "Items" [] none
          [.node "Distance" [("Id", "X")] none
            [.node "Value" [] (some "abc") []]]]]]

/-- C5 counterexample: for a single matching scale record whose `Value` text
does not parse as a number, the resolver raises `ValueError`, not
`UnsupportedMetadata` as the claim states. -/
theorem single_physical_pixel_size_counterexample :
    _single_physical_pixel_size exScaleUnparseable "X" false = .error .valueError ∧
    raisesUnsupportedMetadata (_single_physical_pixel_size exScaleUnparseable "X" false)
      = false := by
  constructor
  · with_unfolding_all rfl
  · with_unfolding_all rfl

/-- A metadata document whose single `X` scale-distance record carries the
value `2e-06` (meters). -/
def exScaleGood : Xml :=
  .node "ImageDocument" [] none
    [.node "Metadata" [] none
      [.node "Scaling" [] none
        [.node "Items" [] none
          [.node "Distance" [("Id", "X")] none
            [.node "Value" [] (some "2e-06") []]]]]]

/-- Witness for C5 (amended) at a concrete document: the single `X` scale of
`2e-06` meters resolves to `2e-06 / 1e-6 = 2` microns. -/
theorem single_physical_pixel_size_spec_witness :
    _single_physical_pixel_size exScaleGood "X" false
      = .ok (some ((1 / 500000 : ℚ) / (1 / 1000000))) :=
  (single_physical_pixel_size_spec exScaleGood "X" false
      [.node "Distance" [("Id", "X")] none [.node "Value" [] (some "2e-06") []]]
      (by rfl)).2.2.2.2.2
    (.node "Distance" [("Id", "X")] none [.node "Value" [] (some "2e-06") []])
    "2e-06" (1 / 500000) rfl rfl (by with_unfolding_all rfl)

/-- Embedding of `bioio_czi.metadata.generate_ome_image_id`. -/
def generate_ome_image_id (image_id : Nat) : String :=
  "Image:" ++ toString image_id

/-- Embedding of `bioio_czi.metadata.generate_ome_channel_id`: strips the
`Image:` marker from the image id and joins the indices. -/
def generate_ome_channel_id (image_id : String) (channel_id : String) : String :=
  let image_index := image_id.replace "Image:" ""
  "Channel:" ++ image_index ++ ":" ++ channel_id

/-- Python list slicing `l[:n]`, faithful to negative `n`:
`l[:-k]` keeps the first `max(0, len(l) - k)` elements. -/
def pySliceTo {α : Type} (l : List α) (n : Int) : List α :=
  if 0 ≤ n then l.take n.toNat else l.take (l.length - (-n).toNat)

/-- The name of one channel element at position `i` in the loop of
`get_channel_names`: the `Name` attribute, else the `Id` attribute, else a
synthesized `Channel:{scene_index}:{i}` id. -/
def resolveChannelName (scene_index : Nat) (i : Nat) (channel : Xml) : String :=
  match channel.attr "Name" with
  | some channel_name => channel_name
  | none =>
    match channel.attr "Id" with
    | some channel_id => channel_id
    | none => generate_ome_channel_id (toString scene_index) (toString i)

/-- Embedding of `bioio_czi.channels.get_channel_names`.  The scene index is
a natural number, as produced by scene selection.  The process-wide
`log.warning` side channel is returned as an explicit second component:
`true` when the "More channels in metadata than in data" warning fires.
The per-channel name resolution of the loop body is `resolveChannelName`. -/
def get_channel_names (xml : Xml) (scene_index : Nat) (dims_shape : BoundingBox) :
    Option (List String) × Bool :=
  let img_sets := findDescendantPath xml "Image" ["Dimensions", "Channels"]
  if img_sets.isEmpty then (none, false)
  else
    let img := if scene_index < img_sets.length then img_sets.getD scene_index default
               else img_sets.headD default
    let channels := img.childrenTagged "Channel"
    let number_of_channels_in_data := size dims_shape "C"
    let warned := decide ((channels.length : Int) > number_of_channels_in_data)
    let kept := pySliceTo channels number_of_channels_in_data
    let scene_channel_list := kept.enum.map
      (fun p => resolveChannelName scene_index p.1 p.2)
    (some scene_channel_list, warned)

/-- C4 (amended): when the metadata has at least one channel-group and the
channel dimension is present in the dims-shape (so that the channel count of
the pixel data is non-negative), the returned name list keeps exactly the
first `channels_in_data` channel elements of the selected group, each
resolved by `resolveChannelName`; consequently its length is
`min(channels_in_metadata, channels_in_data)`, and the warning fires exactly
when the metadata declares more channels than the data. -/
theorem get_channel_names_spec (xml : Xml) (scene_index : Nat) (dims_shape : BoundingBox)
    (img_sets : List Xml)
    (hset : findDescendantPath xml "Image" ["Dimensions", "Channels"] = img_sets)
    (hne : img_sets ≠ []) (hc : 0 ≤ size dims_shape "C") :
    (get_channel_names xml scene_index dims_shape).1
      = some (((((if scene_index < img_sets.length then img_sets.getD scene_index default
                  else img_sets.headD default).childrenTagged "Channel").take
                    (size dims_shape "C").toNat).enum).map
          (fun p => resolveChannelName scene_index p.1 p.2)) ∧
    (get_channel_names xml scene_index dims_shape).1.map List.length
      = some (min (((if scene_index < img_sets.length then img_sets.getD scene_index default
                     else img_sets.headD default).childrenTagged "Channel").length)
                  (size dims_shape "C").toNat) ∧
    (get_channel_names xml scene_index dims_shape).2
      = decide ((((if scene_index < img_sets.length then img_sets.getD scene_index default
                   else img_sets.headD default).childrenTagged "Channel").length : Int)
                > size dims_shape "C") := by
  have hie : img_sets.isEmpty = false := by
    cases img_sets with
    | nil => exact absurd rfl hne
    | cons a l => rfl
  refine ⟨?_, ?_, ?_⟩
  · simp only [get_channel_names, hset, hie, Bool.false_eq_true, if_false,
      pySliceTo, hc, if_pos]
  · simp only [get_channel_names, hset, hie, Bool.false_eq_true, if_false, Option.map_some,
      pySliceTo, hc, if_pos, List.length_map, List.enum_length, List.length_take]
    simp [List.length_take]
    omega
  · simp only [get_channel_names, hset, hie, Bool.false_eq_true, if_false]

/-- A channel-group element with two named channels. -/
def exChannelsGroup : Xml :=
  .node "Channels" [] none
    [.node "Channel" [("Id", "Channel:0"), ("Name", "Bright")] none [],
     .node "Channel" [("Id", "Channel:1"), ("Name", "Dark")] none []]

/-- A metadata document with one channel-group holding two channels. -/
def exChannelsMd : Xml :=
  .node "ImageDocument" [] none
    [.node "Metadata" [] none
      [.node "Information" [] none
        [.node "Image" [] none
          [.node "Dimensions" [] none [exChannelsGroup]]]]]

/-- C4 counterexample: with two channels in the metadata and a dims-shape
that lacks the channel dimension, the channel count of the data is the
sentinel `-1`, the Python slice `channels[:-1]` keeps one name, and
`1 ≠ min(2, -1)`: the claimed length equation fails for this dims-shape. -/
theorem get_channel_names_counterexample :
    (get_channel_names exChannelsMd 0
        [("T", ((0 : Int), (3 : Int))), ("Y", (0, 2)), ("X", (0, 2))]).1
      = some ["Bright"] ∧
    size [("T", ((0 : Int), (3 : Int))), ("Y", (0, 2)), ("X", (0, 2))] "C" = -1 ∧
    ((1 : Int) ≠ min 2 (-1)) := by
  refine ⟨by with_unfolding_all rfl, by with_unfolding_all rfl, by decide⟩

/-- Witness for C4 (amended) at a concrete document: two channels in the
metadata, one channel in the data; exactly the first channel's name
`"Bright"` is kept and the warning fires. -/
theorem get_channel_names_spec_witness :
    (get_channel_names exChannelsMd 0 [("C", ((0 : Int), (1 : Int)))]).1
      = some ["Bright"] ∧
    (get_channel_names exChannelsMd 0 [("C", ((0 : Int), (1 : Int)))]).1.map List.length
      = some 1 ∧
    (get_channel_names exChannelsMd 0 [("C", ((0 : Int), (1 : Int)))]).2 = true := by
  have h := get_channel_names_spec exChannelsMd 0 [("C", ((0 : Int), (1 : Int)))]
    [exChannelsGroup] (by with_unfolding_all rfl) (by simp) (by decide)
  rcases h with ⟨h0, h1, h2⟩
  refine ⟨?_, ?_, ?_⟩
  · rw [h0]
    with_unfolding_all rfl
  · rw [h1]
    with_unfolding_all rfl
  · rw [h2]
    with_unfolding_all rfl

/-- An integer pixel rectangle, as in pylibCZIrw's scene bounding
rectangles (`x`, `y`, `w`, `h`). -/
structure Rect where
  x : Int
  y : Int
  w : Int
  h : Int
deriving Repr, DecidableEq

/-- A single plane chunk as returned by `file.read` followed by
`np.squeeze`: a YX matrix of pixel values for grayscale data, or a YX
matrix of (three-element) sample lists for BGR data.  Models `np.squeeze`
restricted to the shapes documented at the call site (`(Y, X, 1)` or
`(Y, X, 3)`). -/
inductive Chunk where
  | gray (rows : List (List Int))
  | color (rows : List (List (List Int)))
deriving Repr, DecidableEq

/-- `np.squeeze` on a `(Y, X, 1)` or `(Y, X, 3)` array: drops the trailing
singleton sample axis, keeps a non-singleton one. -/
def np_squeeze (result : List (List (List Int))) : Chunk :=
  if result.all (fun row => row.all (fun px => px.length == 1)) then
    .gray (result.map (fun row => row.map (fun px => px.headD 0)))
  else .color result

/-- Embedding of an open `pylibCZIrw` CZI file handle: the per-file facts
the reader constructor snapshots, the raw metadata document (modelled as
the already-parsed tree, `ET.fromstring` being the identity here), and the
`read` capability returning a `(Y, X, S)` pixel array for a scene, plane
selector and region of interest. -/
structure CziFileModel where
  total_bounding_box_no_pyramid : BoundingBox
  pixel_types : List String
  scenes_bounding_rectangle_no_pyramid : List (Int × Rect)
  scenes_bounding_rectangle : List (Int × Rect)
  raw_metadata : Xml
  read : Option Int → List (String × Int) → Option Rect → List (List (List Int))

/-- Embedding of the `scene_name` helper inside `Reader.scenes`: the unique
`Scene` element for the index gives the name (attribute `Name`, else the
numeric index), optionally suffixed with the `Shape` child's `Name`. -/
def scene_name (metadata : Xml) (scene_index : Int) : Except PyError String :=
  let scene_info := findPathAttr metadata
    ["Metadata", "Information", "Image", "Dimensions", "S", "Scenes"]
    "Scene" "Index" (toString scene_index)
  match scene_info with
  | [s] =>
    let nm := (s.attr "Name").getD (toString scene_index)
    match (s.childrenTagged "Shape").head? with
    | some shape =>
      match shape.attr "Name" with
      | some shape_nm => .ok (nm ++ "-" ++ shape_nm)
      | none => .ok nm
    | none => .ok nm
  | _ =>
    .error (.unsupportedMetadata
      ("Expected 1 scene for index '" ++ toString scene_index ++ "' "
        ++ "but found {len(scene_info)}."))

/-- Embedding of the `Reader.scenes` property (pylibczirw mode): one name
per raw scene id of `scenes_bounding_rectangle`, falling back to the
synthesized default id when the file has no scenes. -/
def scenes (file : CziFileModel) : Except PyError (List String) :=
  let scene_ids := file.scenes_bounding_rectangle.map Prod.fst
  match scene_ids.mapM (fun i => scene_name file.raw_metadata i) with
  | .error e => .error e
  | .ok names =>
    if names.length < 1 then .ok [generate_ome_image_id 0]
    else .ok names

/-- C10: when the scene-rectangle map is empty (the decoder reports zero
scenes), `scenes` returns exactly the one-element tuple containing the
synthesized default scene id `"Image:0"`. -/
theorem scenes_empty_default (file : CziFileModel)
    (h : file.scenes_bounding_rectangle = []) :
    scenes file = .ok ["Image:0"] := by
  simp [scenes, h, generate_ome_image_id]
  rfl

/-- A file with no scenes (both scene-rectangle maps empty). -/
def exNoScenesFile : CziFileModel :=
  { total_bounding_box_no_pyramid := [("T", (0, 1)), ("Y", (0, 2)), ("X", (0, 3))]
  , pixel_types := ["Gray16"]
  , scenes_bounding_rectangle_no_pyramid := []
  , scenes_bounding_rectangle := []
  , raw_metadata := .node "ImageDocument" [] none []
  , read := fun _ _ _ => [[[1], [2], [3]], [[4], [5], [6]]] }

/-- Witness for C10: the concrete no-scene file lists exactly
`("Image:0",)`. -/
theorem scenes_empty_default_witness : scenes exNoScenesFile = .ok ["Image:0"] :=
  scenes_empty_default exNoScenesFile (by rfl)

/-- A coordinate array attached to one dimension: channel names for `C`,
physical positions for spatial dimensions. -/
inductive CoordValue where
  | channels (names : List String)
  | floats (vals : List ℚ)
deriving Repr, DecidableEq

/-- The length of a coordinate array (`len(coords[d])`). -/
def CoordValue.length : CoordValue → Nat
  | .channels names => names.length
  | .floats vals => vals.length

/-- The coordinate map built per scene: dimension label to coordinate
array, in insertion order. -/
abbrev CoordMap := List (String × CoordValue)

/-- Models `bioio_base.reader.Reader._generate_coord_array(start, stop,
step_size)`, which computes `np.arange(start * step_size, stop * step_size,
step_size)`: the values `start * step_size + i * step_size` for
`i < stop - start` (faithful for a nonzero step). -/
def _generate_coord_array (start stop : Int) (step_size : ℚ) : List ℚ :=
  (List.range (stop - start).toNat).map
    (fun i => (start : ℚ) * step_size + (i : ℚ) * step_size)

/-- Embedding of `Reader._get_coords` (pylibczirw mode): channel names under
key `C` when present, then spatial coordinate arrays for each of `Z`, `Y`,
`X` (the field order of `PhysicalPixelSizes._asdict()`) that has a resolved
scale and appears in the dims-shape.  Note the source passes `0`, not the
dimension's start bound, to `_generate_coord_array`.  The channel part of
the map is factored out as `channelCoords`, and the loop body as
`addSpatialCoord`. -/
def channelCoords (channel_names : Option (List String)) : CoordMap :=
  match channel_names with
  | some names => [("C", .channels names)]
  | none => []

/-- One iteration of the spatial-dimension loop of `_get_coords`: add the
coordinate array for dimension `p.1` when its scale `p.2` resolved and the
dimension is in the dims-shape. -/
def addSpatialCoord (dims_shape : BoundingBox) (coords : CoordMap)
    (p : String × Option ℚ) : CoordMap :=
  match p.2 with
  | some scale =>
    if dictMem dims_shape p.1 then
      coords ++ [(p.1, .floats (_generate_coord_array 0 (size dims_shape p.1) scale))]
    else coords
  | none => coords

def _get_coords (xml : Xml) (scene_index : Nat) (dims_shape : BoundingBox) :
    Except PyError CoordMap :=
  let channel_names := (get_channel_names xml scene_index dims_shape).1
  match get_physical_pixel_sizes xml with
  | .error e => .error e
  | .ok pps =>
    .ok ([("Z", pps.Z), ("Y", pps.Y), ("X", pps.X)].foldl
      (addSpatialCoord dims_shape) (channelCoords channel_names))

/-- A metadata document with `Y` scale `1e-06` m and `X` scale `2e-06` m
(no channels, no `Z` scale). -/
def exCoordsMd : Xml :=
  .node "ImageDocument" [] none
    [.node "Metadata" [] none
      [.node "Scaling" [] none
        [.node "Items" [] none
          [.node "Distance" [("Id", "Y")] none [.node "Value" [] (some "1e-06") []],
           .node "Distance" [("Id", "X")] none [.node "Value" [] (some "2e-06") []]]]]]

/-- A dims-shape whose `X` extent starts at the nonzero lower bound `5`. -/
def exCoordsShape : BoundingBox := [("Y", (0, 2)), ("X", (5, 8))]

/-- C1 counterexample: with `X` bounds `(5, 8)` and scale `2`, the built
coordinate array is `[0, 2, 4]` — the arithmetic progression starting at
zero — and not `[s*p, (s+1)*p, (s+2)*p] = [10, 12, 14]` as the claim
states. -/
theorem get_coords_counterexample :
    _get_coords exCoordsMd 0 exCoordsShape
      = .ok [("Y", .floats [0, 1]), ("X", .floats [0, 2, 4])] ∧
    ([0, 2, 4] : List ℚ) ≠ (List.range 3).map (fun i => ((5 : ℚ) + (i : ℚ)) * 2) := by
  constructor
  · with_unfolding_all rfl
  · simp [List.range_succ]

theorem channelCoords_find_ne (ch : Option (List String)) (d : String)
    (h : ("C" == d) = false) : dictFind (channelCoords ch) d = none := by
  cases ch <;> simp [channelCoords, dictFind_cons, dictFind_nil, h]

theorem addSpatialCoord_find_ne (ds : BoundingBox) (acc : CoordMap) (key d : String)
    (o : Option ℚ) (h : (key == d) = false) :
    dictFind (addSpatialCoord ds acc (key, o)) d = dictFind acc d := by
  cases o with
  | none => rfl
  | some scale =>
    simp only [addSpatialCoord]
    by_cases hm : dictMem ds key
    · simp [hm, dictFind_append, dictFind_cons, dictFind_nil, h]
      cases dictFind acc d <;> simp
    · simp [hm]

theorem addSpatialCoord_find_eq (ds : BoundingBox) (acc : CoordMap) (d : String)
    (p : ℚ) (hm : dictMem ds d = true) (hacc : dictFind acc d = none) :
    dictFind (addSpatialCoord ds acc (d, some p)) d
      = some (.floats (_generate_coord_array 0 (size ds d) p)) := by
  simp [addSpatialCoord, hm, dictFind_append, hacc, dictFind_cons, dictFind_nil]

/-- C1 (amended): for every spatial dimension (`Z`, `Y` or `X`) with a
resolved physical scale `p` that is present in the dims-shape with size
`N`, the built coordinate array is the arithmetic progression
`[0, p, ..., (N-1)*p]` starting at zero — the dimension's lower bound is
not used. -/
theorem get_coords_spatial_spec (xml : Xml) (scene_index : Nat)
    (dims_shape : BoundingBox) (cs : CoordMap) (pps : PhysicalPixelSizes)
    (hc : _get_coords xml scene_index dims_shape = .ok cs)
    (hp : get_physical_pixel_sizes xml = .ok pps) :
    ∀ d p,
      ((d = "Z" ∧ pps.Z = some p) ∨ (d = "Y" ∧ pps.Y = some p) ∨ (d = "X" ∧ pps.X = some p)) →
      dictMem dims_shape d = true →
      dictFind cs d
        = some (.floats ((List.range (size dims_shape d).toNat).map
            (fun i => (i : ℚ) * p))) := by
  intro d p hd hmem
  simp only [_get_coords, hp, List.foldl_cons, List.foldl_nil, Except.ok.injEq] at hc
  have harange : ∀ q : ℚ, _generate_coord_array 0 (size dims_shape d) q
      = (List.range (size dims_shape d).toNat).map (fun i => (i : ℚ) * q) := by
    intro q
    simp [_generate_coord_array]
  rcases hd with ⟨rfl, hs⟩ | ⟨rfl, hs⟩ | ⟨rfl, hs⟩
  · rw [← hc, addSpatialCoord_find_ne _ _ _ _ _ (by decide),
      addSpatialCoord_find_ne _ _ _ _ _ (by decide), hs,
      addSpatialCoord_find_eq _ _ _ _ hmem (channelCoords_find_ne _ _ (by decide)),
      harange]
  · rw [← hc, addSpatialCoord_find_ne _ _ _ _ _ (by decide), hs,
      addSpatialCoord_find_eq _ _ _ _ hmem ?_, harange]
    rw [addSpatialCoord_find_ne _ _ _ _ _ (by decide)]
    exact channelCoords_find_ne _ _ (by decide)
  · rw [← hc, hs, addSpatialCoord_find_eq _ _ _ _ hmem ?_, harange]
    rw [addSpatialCoord_find_ne _ _ _ _ _ (by decide),
      addSpatialCoord_find_ne _ _ _ _ _ (by decide)]
    exact channelCoords_find_ne _ _ (by decide)

/-- Witness for C1 (amended) at the concrete document: the `X` coordinate
array for bounds `(5, 8)` and scale `2` is `[0*2, 1*2, 2*2]`. -/
theorem get_coords_spatial_spec_witness :
    dictFind [("Y", CoordValue.floats [0, 1]), ("X", CoordValue.floats [0, 2, 4])] "X"
      = some (.floats ((List.range 3).map (fun i => (i : ℚ) * 2))) := by
  have h := get_coords_spatial_spec exCoordsMd 0 exCoordsShape
    [("Y", CoordValue.floats [0, 1]), ("X", CoordValue.floats [0, 2, 4])]
    ⟨none, some 1, some 2⟩ (by with_unfolding_all rfl) (by with_unfolding_all rfl)
    "X" 2 (Or.inr (Or.inr ⟨rfl, rfl⟩)) (by rfl)
  exact h

/-- `bioio_base.dimensions.DEFAULT_DIMENSION_ORDER_LIST`: `T, C, Z, Y, X`. -/
def DEFAULT_DIMENSION_ORDER_LIST : List String := ["T", "C", "Z", "Y", "X"]

/-- `PIXEL_DICT` from the pylibczirw reader: decoder pixel-type tag to
numpy element type. -/
def PIXEL_DICT : List (String × String) :=
  [("Gray8", "uint8"), ("Gray16", "uint16"), ("Gray32", "uint32"),
   ("Gray32Float", "float32"), ("Bgr24", "uint8"), ("Bgr48", "uint16"),
   ("Bgr96Float", "float32"), ("invalid", "uint8")]

/-- The mutable state of a pylibczirw-mode `Reader` instance: the file at
`self._path` (re-read by each `open(self._path)`), and the instance
attributes snapshotted by `__init__` plus the mutable
`_current_scene_index`. -/
structure ReaderState where
  file : CziFileModel
  current_scene_index : Nat
  total_bounding_box : BoundingBox
  pixel_types : List String
  scenes_bounding_rectangle : List (Int × Rect)

/-- `Reader.__init__`: snapshot the no-pyramid bounding box, pixel types
and no-pyramid scene rectangles; the current scene index starts at 0. -/
def reader_init (file : CziFileModel) : ReaderState :=
  { file := file
  , current_scene_index := 0
  , total_bounding_box := file.total_bounding_box_no_pyramid
  , pixel_types := file.pixel_types
  , scenes_bounding_rectangle := file.scenes_bounding_rectangle_no_pyramid }

/-- A scene change: `set_scene` updates `_current_scene_index` (cached
arrays are dropped by the base class, but any chunk already handed out
keeps referring to this reader). -/
def set_scene_index (r : ReaderState) (i : Nat) : ReaderState :=
  { r with current_scene_index := i }

/-- Embedding of the closure returned by `Reader._array_builder`
(pylibczirw mode).  The closure captures `index_dims` and the indices at
construction time, but reads `self._scenes_bounding_rectangle` and
`self._current_scene_index` from the reader when it runs, so the reader
state `r` here is the state at execution time. -/
def array_builder (r : ReaderState) (index_dims : List String)
    (indices : List Int) : Except PyError Chunk :=
  if indices.length < index_dims.length then .error .assertionError
  else
    let plane := index_dims.zip indices
    if r.scenes_bounding_rectangle.isEmpty then
      .ok (np_squeeze (r.file.read none plane none))
    else
      match dictFind r.scenes_bounding_rectangle (r.current_scene_index : Int) with
      | none => .error .keyError
      | some roi =>
        .ok (np_squeeze (r.file.read (some (r.current_scene_index : Int)) plane (some roi)))

/-- Step 1 of `_read_delayed`: the dimension bounds.  `dim_bounds` aliases
`self._total_bounding_box` in the source, so the `X`/`Y` overwrite from the
scene rectangle is visible through both names; the updated map is therefore
used for every later `size` call of the same invocation.  The `assert` that
the current scene is in the rectangle map fails fatally
(`AssertionError`). -/
def dim_bounds_of (r : ReaderState) : Except PyError BoundingBox :=
  if r.scenes_bounding_rectangle.isEmpty then .ok r.total_bounding_box
  else
    match dictFind r.scenes_bounding_rectangle (r.current_scene_index : Int) with
    | none => .error .assertionError
    | some rect =>
      .ok (dictSet (dictSet r.total_bounding_box "X" (rect.x, rect.x + rect.w))
        "Y" (rect.y, rect.y + rect.h))

/-- Step 2 of `_read_delayed`: the available dimensions in canonical order —
those present in the coordinate map or with an extent of size above 1. -/
def ordered_dims_of (coords : CoordMap) (bbox : BoundingBox) : List String :=
  DEFAULT_DIMENSION_ORDER_LIST.filter
    (fun d => (dictFind coords d).isSome || size bbox d > 1)

/-- The shape of the assembled array: the coordinate-array length where a
coordinate exists, the bounding-box size otherwise. -/
def shape_of (coords : CoordMap) (bbox : BoundingBox) (ordered_dims : List String) :
    List Int :=
  ordered_dims.map (fun d =>
    match dictFind coords d with
    | some c => (c.length : Int)
    | none => size bbox d)

/-- The multi-indices of the chunk grid, in `np.ndenumerate` (row-major)
order: the cross product of `range(n)` for each grid axis. -/
def gridIndices : List Int → List (List Int)
  | [] => [[]]
  | n :: rest =>
    (List.range n.toNat).flatMap
      (fun i => (gridIndices rest).map (fun t => (i : Int) :: t))

/-- The lazily assembled `xr.DataArray` of `_read_delayed`: dimension
names, coordinate map, the grid shape of the single-plane chunks, the raw
metadata attribute, and one deferred computation per grid cell.  A chunk is
a function of the reader state because the underlying closure reads the
mutable reader attributes when the dask graph is computed, not when it is
built. -/
structure DataArrayLazy where
  dims : List String
  coords : CoordMap
  grid_shape : List Int
  attrs_unprocessed : Xml
  chunk : List Int → ReaderState → Except PyError Chunk

instance : Inhabited DataArrayLazy :=
  ⟨{ dims := [], coords := [], grid_shape := [],
     attrs_unprocessed := default, chunk := fun _ _ => .error .keyError }⟩

/-- Embedding of `Reader._read_delayed` (pylibczirw mode). -/
def _read_delayed (r : ReaderState) : Except PyError DataArrayLazy :=
  match dim_bounds_of r with
  | .error e => .error e
  | .ok dim_bounds =>
    match _get_coords r.file.raw_metadata r.current_scene_index dim_bounds with
    | .error e => .error e
    | .ok coords =>
      let ordered_dims := ordered_dims_of coords dim_bounds
      if ordered_dims.drop (ordered_dims.length - 2) = ["Y", "X"] then
        let non_yx_dims := ordered_dims.take (ordered_dims.length - 2)
        let shape := shape_of coords dim_bounds ordered_dims
        let shape_without_yx := shape.take (shape.length - 2)
        match r.pixel_types with
        | [] => .error .indexError
        | pt :: _ =>
          let isBgr := (pt.splitOn "Bgr").length > 1
          let dims_out := if isBgr then ordered_dims ++ ["S"] else ordered_dims
          if (gridIndices shape_without_yx) ≠ [] ∧ dictFind PIXEL_DICT pt = none then
            .error .keyError
          else
            .ok { dims := dims_out
                , coords := coords
                , grid_shape := shape_without_yx
                , attrs_unprocessed := r.file.raw_metadata
                , chunk := fun idx s => array_builder s non_yx_dims (idx ++ [0, 0]) }
      else .error .assertionError

/-- The eagerly materialized array: dimension names, coordinates, grid
shape, metadata attribute and the chunk values in grid (row-major) order. -/
structure DataArrayComputed where
  dims : List String
  coords : CoordMap
  grid_shape : List Int
  attrs_unprocessed : Xml
  data : List Chunk

/-- `DataArray.compute()` on the lazy array: force every chunk against the
reader state `r`, propagating any chunk failure. -/
def compute_array (r : ReaderState) (la : DataArrayLazy) :
    Except PyError DataArrayComputed :=
  match (gridIndices la.grid_shape).mapM (fun idx => la.chunk idx r) with
  | .error e => .error e
  | .ok chunks =>
    .ok { dims := la.dims, coords := la.coords, grid_shape := la.grid_shape,
          attrs_unprocessed := la.attrs_unprocessed, data := chunks }

/-- Embedding of `Reader._read_immediate`:
`return self._read_delayed().compute()`. -/
def _read_immediate (r : ReaderState) : Except PyError DataArrayComputed :=
  match _read_delayed r with
  | .error e => .error e
  | .ok la => compute_array r la

/-- C7: the immediate read equals the delayed read followed by computing
every chunk against the same reader state; the computed array keeps the
dims and coordinates of the lazy array, and its data is exactly the forced
chunk grid. -/
theorem read_immediate_eq_forced_delayed (r : ReaderState) (la : DataArrayLazy)
    (h : _read_delayed r = .ok la) :
    _read_immediate r = compute_array r la ∧
    ∀ ca, compute_array r la = .ok ca →
      ca.dims = la.dims ∧ ca.coords = la.coords ∧
      (gridIndices la.grid_shape).mapM (fun idx => la.chunk idx r) = .ok ca.data := by
  constructor
  · simp [_read_immediate, h]
  · intro ca hca
    simp only [compute_array] at hca
    rcases hm : (gridIndices la.grid_shape).mapM (fun idx => la.chunk idx r) with e | chunks
    · rw [hm] at hca
      simp at hca
    · rw [hm] at hca
      simp only [Except.ok.injEq] at hca
      subst hca
      refine ⟨rfl, rfl, ?_⟩
      simp only [hm]

/-- A file with no scenes whose metadata resolves `Y` and `X` scales. -/
def exGoodFile : CziFileModel :=
  { total_bounding_box_no_pyramid := [("T", (0, 1)), ("Z", (0, 1)), ("Y", (0, 2)), ("X", (0, 3))]
  , pixel_types := ["Gray16"]
  , scenes_bounding_rectangle_no_pyramid := []
  , scenes_bounding_rectangle := []
  , raw_metadata := exCoordsMd
  , read := fun _ _ _ => [[[1], [2], [3]], [[4], [5], [6]]] }

/-- Witness for C7 at the concrete file: the immediate read is the computed
delayed read. -/
theorem read_immediate_eq_forced_delayed_witness :
    _read_immediate (reader_init exGoodFile)
      = compute_array (reader_init exGoodFile)
          ((_read_delayed (reader_init exGoodFile)).toOption.getD default) :=
  (read_immediate_eq_forced_delayed (reader_init exGoodFile)
    ((_read_delayed (reader_init exGoodFile)).toOption.getD default)
    (by with_unfolding_all rfl)).1

/-- C6: the ordered dimension list contains exactly the canonical-order
dimensions present in the coordinate map or with extent size above 1; when
this list does not end with spatial `Y` immediately followed by spatial
`X`, `_read_delayed` fails with the fatal `AssertionError` (not a
recoverable error), and whenever it succeeds the list does end with
`Y, X`. -/
theorem ordered_dims_spec :
    (∀ (coords : CoordMap) (bbox : BoundingBox) (d : String),
       d ∈ ordered_dims_of coords bbox ↔
         d ∈ DEFAULT_DIMENSION_ORDER_LIST ∧
           ((dictFind coords d).isSome = true ∨ size bbox d > 1)) ∧
    (∀ (r : ReaderState) (db : BoundingBox) (cs : CoordMap),
       dim_bounds_of r = .ok db →
       _get_coords r.file.raw_metadata r.current_scene_index db = .ok cs →
       (ordered_dims_of cs db).drop ((ordered_dims_of cs db).length - 2) ≠ ["Y", "X"] →
       _read_delayed r = .error .assertionError) ∧
    (∀ (r : ReaderState) (db : BoundingBox) (cs : CoordMap) (la : DataArrayLazy),
       dim_bounds_of r = .ok db →
       _get_coords r.file.raw_metadata r.current_scene_index db = .ok cs →
       _read_delayed r = .ok la →
       (ordered_dims_of cs db).drop ((ordered_dims_of cs db).length - 2) = ["Y", "X"]) := by
  have key : ∀ (r : ReaderState) (db : BoundingBox) (cs : CoordMap),
      dim_bounds_of r = .ok db →
      _get_coords r.file.raw_metadata r.current_scene_index db = .ok cs →
      (ordered_dims_of cs db).drop ((ordered_dims_of cs db).length - 2) ≠ ["Y", "X"] →
      _read_delayed r = .error .assertionError := by
    intro r db cs h1 h2 h3
    simp only [_read_delayed, h1, h2]
    rw [if_neg h3]
  refine ⟨?_, key, ?_⟩
  · intro coords bbox d
    simp [ordered_dims_of, List.mem_filter]
  · intro r db cs la h1 h2 hla
    by_contra hne
    have := key r db cs h1 h2 hne
    rw [this] at hla
    simp at hla

/-- A file whose bounding box has no `Y` dimension: the ordered dimension
list is `["X"]` and the trailing-(Y, X) precondition fails. -/
def exNoYFile : CziFileModel :=
  { total_bounding_box_no_pyramid := [("X", (0, 4))]
  , pixel_types := ["Gray16"]
  , scenes_bounding_rectangle_no_pyramid := []
  , scenes_bounding_rectangle := []
  , raw_metadata := exCoordsMd
  , read := fun _ _ _ => [[[0]]] }

/-- Witness for C6 at a concrete file violating the trailing-(Y, X)
precondition: the read fails with `AssertionError`. -/
theorem ordered_dims_spec_witness :
    _read_delayed (reader_init exNoYFile) = .error .assertionError :=
  ordered_dims_spec.2.1 (reader_init exNoYFile)
    [("X", ((0 : Int), (4 : Int)))]
    [("X", CoordValue.floats [0, 2, 4, 6])]
    (by with_unfolding_all rfl) (by with_unfolding_all rfl) (by decide)

/-- C3 (amended): a chunk captures only the dimension names and its grid
multi-index at construction time; the scene identity and its ROI are read
from the reader state *at execution time* — forcing a chunk evaluates
`array_builder` against whatever state it is forced under. -/
theorem chunk_reads_execution_state (r : ReaderState) (db : BoundingBox)
    (cs : CoordMap) (la : DataArrayLazy)
    (h1 : dim_bounds_of r = .ok db)
    (h2 : _get_coords r.file.raw_metadata r.current_scene_index db = .ok cs)
    (hla : _read_delayed r = .ok la) :
    ∀ (idx : List Int) (s : ReaderState),
      la.chunk idx s
        = array_builder s
            ((ordered_dims_of cs db).take ((ordered_dims_of cs db).length - 2))
            (idx ++ [0, 0]) := by
  intro idx s
  simp only [_read_delayed, h1, h2] at hla
  split at hla
  · split at hla
    · simp at hla
    · split at hla
      · simp at hla
      · simp only [Except.ok.injEq] at hla
        subst hla
        rfl
  · simp at hla

/-- A file with two scenes whose highest-resolution rectangles differ in
their `x` offset; `read` echoes the ROI's `x` so that reads against
different scenes are distinguishable. -/
def exScenesFile : CziFileModel :=
  { total_bounding_box_no_pyramid := [("T", (0, 1))]
  , pixel_types := ["Gray8"]
  , scenes_bounding_rectangle_no_pyramid := [(0, ⟨0, 0, 2, 1⟩), (1, ⟨10, 0, 2, 1⟩)]
  , scenes_bounding_rectangle := [(0, ⟨0, 0, 2, 1⟩), (1, ⟨10, 0, 2, 1⟩)]
  , raw_metadata := exCoordsMd
  , read := fun _ _ roi => [[[(roi.getD ⟨-1, -1, 0, 0⟩).x]]] }

/-- Force the single chunk of the lazily assembled array that was built
while scene 0 was current, against an execution-time reader state. -/
def exForceChunk (s : ReaderState) : Except PyError Chunk :=
  match _read_delayed (reader_init exScenesFile) with
  | .ok la => la.chunk [] s
  | .error e => .error e

/-- C3 counterexample: the chunk was created while scene 0 (ROI at `x = 0`)
was current; forcing it after `set_scene` changed the index to scene 1
(ROI at `x = 10`) reads scene 1's ROI, so the pixel result differs — the
chunk's result depends on mutable reader state read at execution time. -/
theorem chunk_capture_counterexample :
    exForceChunk (reader_init exScenesFile) = .ok (.gray [[0]]) ∧
    exForceChunk (set_scene_index (reader_init exScenesFile) 1) = .ok (.gray [[10]]) ∧
    exForceChunk (reader_init exScenesFile)
      ≠ exForceChunk (set_scene_index (reader_init exScenesFile) 1) := by
  have hbefore : exForceChunk (reader_init exScenesFile) = .ok (.gray [[0]]) := by
    with_unfolding_all rfl
  have hafter : exForceChunk (set_scene_index (reader_init exScenesFile) 1)
      = .ok (.gray [[10]]) := by
    with_unfolding_all rfl
  refine ⟨hbefore, hafter, ?_⟩
  rw [hbefore, hafter]
  simp

/-- Witness for C3 (amended) at the concrete two-scene file: the chunk
forced under the scene-1 state evaluates `array_builder` against that
state. -/
theorem chunk_reads_execution_state_witness :
    ((_read_delayed (reader_init exScenesFile)).toOption.getD default).chunk []
        (set_scene_index (reader_init exScenesFile) 1)
      = array_builder (set_scene_index (reader_init exScenesFile) 1) [] [0, 0] := by
  have h := chunk_reads_execution_state (reader_init exScenesFile)
    [("T", ((0 : Int), (1 : Int))), ("X", (0, 2)), ("Y", (0, 1))]
    [("Y", CoordValue.floats [0]), ("X", CoordValue.floats [0, 2])]
    ((_read_delayed (reader_init exScenesFile)).toOption.getD default)
    (by with_unfolding_all rfl) (by with_unfolding_all rfl) (by with_unfolding_all rfl)
    [] (set_scene_index (reader_init exScenesFile) 1)
  exact h

/-- A CZI subblock in aicspylibczi mode: its dimension coordinates and the
result of `_extract_acquisition_time_from_subblock_metadata` on its
metadata fragment — `none` when the `AcquisitionTime` element is absent or
unparseable (the parse failure is logged, never raised).  Timestamps are
modelled as rational milliseconds on a common clock (`np.datetime64` is
integer-ticked). -/
structure Subblock where
  dims : List (String × Int)
  acq_time : Option ℚ

/-- An open `aicspylibczi.CziFile`, holding its subblocks in file order. -/
structure AicsCziFile where
  subblocks : List Subblock

/-- A subblock matches a keyword filter when every constrained dimension it
carries has the required value (a constraint on a dimension the subblock
does not carry is vacuous). -/
def matchesFilter (sb : Subblock) (filt : List (String × Int)) : Bool :=
  filt.all (fun c =>
    match dictFind sb.dims c.1 with
    | some v => v == c.2
    | none => true)

/-- Modelled from the spec: the decoder capability
`read_subblock_metadata(filter) -> [(coordinate_tuple, xml_fragment)]` of
the external `aicspylibczi.CziFile` (absent from `src/`), returning the
matching subblocks in file order. -/
def read_subblock_metadata (czi : AicsCziFile) (filt : List (String × Int)) :
    List Subblock :=
  czi.subblocks.filter (fun sb => matchesFilter sb filt)

/-- The pinned keyword filter of `_acquisition_time`:
`Z=0, C=0, T=which_subblock, R=0, S=0, I=0, H=0, V=0`. -/
def pinnedFilter (t : Int) : List (String × Int) :=
  [("Z", 0), ("C", 0), ("T", t), ("R", 0), ("S", 0), ("I", 0), ("H", 0), ("V", 0)]

/-- Embedding of `_acquisition_time`: query the pinned filter and, when any
subblock matches, parse the **first** matching subblock's fragment
(`subblock_metadata[0][1]`). -/
def _acquisition_time (czi : AicsCziFile) (which_subblock : Int) : Option ℚ :=
  match read_subblock_metadata czi (pinnedFilter which_subblock) with
  | [] => none
  | first :: _ => first.acq_time

/-- `_difference_in_ms`: `(end_time - start_time) / np.timedelta64(1,
"ms")`, with timestamps already in milliseconds. -/
def _difference_in_ms (start_time end_time : ℚ) : ℚ :=
  end_time - start_time

/-- Embedding of `time_between_subblocks`. -/
def time_between_subblocks (czi : AicsCziFile)
    (start_subblock_index end_subblock_index : Int) : Option ℚ :=
  match _acquisition_time czi start_subblock_index,
        _acquisition_time czi end_subblock_index with
  | some start_time, some end_time => some (_difference_in_ms start_time end_time)
  | _, _ => none

/-- The claim's notion of the timestamps at a logical time index: the
parseable acquisition times over *every* subblock of the scene whose time
coordinate equals the index. -/
def claimedTimesAtIndex (czi : AicsCziFile) (scene t : Int) : List ℚ :=
  czi.subblocks.filterMap (fun sb =>
    if dictFind sb.dims "S" == some scene && dictFind sb.dims "T" == some t then sb.acq_time
    else none)

/-- The minimum of a list of timestamps (`none` on the empty list). -/
def listMin : List ℚ → Option ℚ
  | [] => none
  | a :: r =>
    match listMin r with
    | none => some a
    | some b => some (min a b)

/-- The claim's description of `time_between`: the earliest parseable
timestamp at each endpoint index within the scene, `none` iff an endpoint
has zero parseable timestamps. -/
def claimed_time_between (czi : AicsCziFile) (scene s e : Int) : Option ℚ :=
  match listMin (claimedTimesAtIndex czi scene s),
        listMin (claimedTimesAtIndex czi scene e) with
  | some a, some b => some (b - a)
  | _, _ => none

/-- A file whose first subblock at `T=0` has an unparseable timestamp while
a second subblock at `T=0` parses to `5` ms, and whose single `T=1`
subblock parses to `20` ms. -/
def exSubblocksFile : AicsCziFile :=
  { subblocks :=
      [ { dims := [("S", 0), ("T", 0)], acq_time := none }
      , { dims := [("S", 0), ("T", 0)], acq_time := some 5 }
      , { dims := [("S", 0), ("T", 1)], acq_time := some 20 } ] }

/-- C2 counterexample: both endpoint indices have a subblock with a
parseable timestamp (so the claim demands `earliest(1) - earliest(0) = 15`),
yet the code returns `None`, because it parses only the *first* subblock of
a pinned query rather than the earliest parseable one. -/
theorem time_between_counterexample :
    time_between_subblocks exSubblocksFile 0 1 = none ∧
    claimed_time_between exSubblocksFile 0 0 1 = some 15 ∧
    (exSubblocksFile.subblocks.any (fun sb =>
        dictFind sb.dims "T" == some 0 && sb.acq_time.isSome)) = true ∧
    (exSubblocksFile.subblocks.any (fun sb =>
        dictFind sb.dims "T" == some 1 && sb.acq_time.isSome)) = true := by
  refine ⟨by with_unfolding_all rfl, by with_unfolding_all rfl,
    by with_unfolding_all rfl, by with_unfolding_all rfl⟩

/-- C2 (amended): `time_between_subblocks` returns `None` iff the pinned
query (`T = index`, `Z = C = R = S = I = H = V = 0` where carried) at either
endpoint matches no subblock or its first match has an unparseable
timestamp; otherwise it is the first-match timestamp at the end index minus
the one at the start index, in milliseconds. -/
theorem time_between_spec (czi : AicsCziFile) (s e : Int) :
    time_between_subblocks czi s e =
      match (read_subblock_metadata czi (pinnedFilter s)).head?.bind Subblock.acq_time,
            (read_subblock_metadata czi (pinnedFilter e)).head?.bind Subblock.acq_time with
      | some start_time, some end_time => some (end_time - start_time)
      | _, _ => none := by
  have hconv : ∀ t : Int, _acquisition_time czi t
      = (read_subblock_metadata czi (pinnedFilter t)).head?.bind Subblock.acq_time := by
    intro t
    simp only [_acquisition_time]
    cases read_subblock_metadata czi (pinnedFilter t) <;> rfl
  simp only [time_between_subblocks, hconv, _difference_in_ms]

/-- Insertion into an ascending-sorted list. -/
def insertSorted (a : ℚ) : List ℚ → List ℚ
  | [] => [a]
  | b :: r => if a ≤ b then a :: b :: r else b :: insertSorted a r

/-- Models `np.sort` (ascending) on a list of timestamps. -/
def np_sort (l : List ℚ) : List ℚ :=
  l.foldr insertSorted []

theorem mem_insertSorted (a x : ℚ) (l : List ℚ) :
    x ∈ insertSorted a l ↔ x = a ∨ x ∈ l := by
  induction l with
  | nil => simp [insertSorted]
  | cons b r ih =>
    simp only [insertSorted]
    by_cases h : a ≤ b
    · simp [h]
    · simp [h, ih]
      tauto

theorem insertSorted_length (a : ℚ) (l : List ℚ) :
    (insertSorted a l).length = l.length + 1 := by
  induction l with
  | nil => rfl
  | cons b r ih =>
    simp only [insertSorted]
    by_cases h : a ≤ b
    · simp [h]
    · simp [h, ih]

theorem insertSorted_sorted (a : ℚ) (l : List ℚ) (h : l.Sorted (· ≤ ·)) :
    (insertSorted a l).Sorted (· ≤ ·) := by
  induction l with
  | nil => simp [insertSorted]
  | cons b r ih =>
    rw [List.sorted_cons] at h
    simp only [insertSorted]
    by_cases hab : a ≤ b
    · rw [if_pos hab, List.sorted_cons]
      constructor
      · intro c hc
        rcases List.mem_cons.mp hc with rfl | hc
        · exact hab
        · exact le_trans hab (h.1 c hc)
      · rw [List.sorted_cons]
        exact h
    · rw [if_neg hab, List.sorted_cons]
      constructor
      · intro c hc
        rcases (mem_insertSorted a c r).mp hc with rfl | hc
        · exact le_of_not_le hab
        · exact h.1 c hc
      · exact ih h.2

theorem np_sort_sorted (l : List ℚ) : (np_sort l).Sorted (· ≤ ·) := by
  induction l with
  | nil => simp [np_sort]
  | cons a r ih => exact insertSorted_sorted a (np_sort r) ih

theorem mem_np_sort (l : List ℚ) (x : ℚ) : x ∈ np_sort l ↔ x ∈ l := by
  induction l with
  | nil => simp [np_sort]
  | cons a r ih =>
    show x ∈ insertSorted a (np_sort r) ↔ _
    rw [mem_insertSorted]
    simp [ih]

theorem np_sort_length (l : List ℚ) : (np_sort l).length = l.length := by
  induction l with
  | nil => rfl
  | cons a r ih =>
    show (insertSorted a (np_sort r)).length = _
    rw [insertSorted_length, ih]
    rfl

theorem sorted_headD_le (l : List ℚ) (h : l.Sorted (· ≤ ·)) (x : ℚ) (hx : x ∈ l) :
    l.headD 0 ≤ x := by
  cases l with
  | nil => cases hx
  | cons a r =>
    rw [List.sorted_cons] at h
    rcases List.mem_cons.mp hx with rfl | hx
    · exact le_refl _
    · exact h.1 x hx

theorem sorted_le_getLastD (l : List ℚ) (h : l.Sorted (· ≤ ·)) :
    ∀ x ∈ l, ∀ d : ℚ, x ≤ l.getLastD d := by
  induction l with
  | nil => intro x hx; cases hx
  | cons a r ih =>
    rw [List.sorted_cons] at h
    intro x hx d
    rw [List.getLastD_cons]
    rcases List.mem_cons.mp hx with rfl | hx
    · cases r with
      | nil => simp [List.getLastD]
      | cons b rr =>
        exact le_trans (h.1 b (by simp)) (ih h.2 b (by simp) x)
    · exact ih h.2 x hx a

theorem getLastD_mem (l : List ℚ) (hl : l ≠ []) : ∀ d : ℚ, l.getLastD d ∈ l := by
  induction l with
  | nil => exact absurd rfl hl
  | cons a r ih =>
    intro d
    rw [List.getLastD_cons]
    cases hr : r with
    | nil => simp [hr, List.getLastD]
    | cons b rr =>
      right
      rw [← hr]
      exact ih (by simp [hr]) a

/-- The parseable acquisition timestamps over all subblocks of the first
scene (`S=0`), in file order — the `filtered_acquisition_times` of the
source.  The source's extra `t is not np.datetime64("NaT")` identity check
compares against a freshly constructed object and is therefore vacuously
true; the filter keeps exactly the non-`None` parse results. -/
def parseable_times (czi : AicsCziFile) : List ℚ :=
  ((read_subblock_metadata czi [("S", 0)]).map (fun sb => sb.acq_time)).filterMap id

/-- Embedding of `elapsed_time_all_subblocks`: sort every parseable
timestamp of the first scene and take last minus first, `None` when fewer
than two exist. -/
def elapsed_time_all_subblocks (czi : AicsCziFile) : Option ℚ :=
  let sorted_acquisition_times := np_sort (parseable_times czi)
  if sorted_acquisition_times.length < 2 then none
  else
    some (_difference_in_ms (sorted_acquisition_times.headD 0)
      (sorted_acquisition_times.getLastD 0))

/-- C8: `elapsed_time_all_subblocks` collects every parseable timestamp of
the first scene; with fewer than two parseable timestamps it returns
`None`, and with two or more it returns the maximum minus the minimum in
milliseconds. -/
theorem elapsed_time_all_spec (czi : AicsCziFile) :
    ((parseable_times czi).length < 2 → elapsed_time_all_subblocks czi = none) ∧
    (∀ a b : ℚ, 2 ≤ (parseable_times czi).length →
      a ∈ parseable_times czi → (∀ c ∈ parseable_times czi, a ≤ c) →
      b ∈ parseable_times czi → (∀ c ∈ parseable_times czi, c ≤ b) →
      elapsed_time_all_subblocks czi = some (b - a)) := by
  constructor
  · intro h
    have hlt : (np_sort (parseable_times czi)).length < 2 := by
      rw [np_sort_length]
      exact h
    simp [elapsed_time_all_subblocks, hlt]
  · intro a b hlen ha hlba hb hubb
    have hslen : (np_sort (parseable_times czi)).length = (parseable_times czi).length :=
      np_sort_length _
    have hnlt : ¬ (np_sort (parseable_times czi)).length < 2 := by omega
    have hsorted := np_sort_sorted (parseable_times czi)
    obtain ⟨h0, t, hst⟩ : ∃ h0 t, np_sort (parseable_times czi) = h0 :: t := by
      cases hs : np_sort (parseable_times czi) with
      | nil =>
        rw [hs] at hslen
        simp at hslen
        omega
      | cons h0 t => exact ⟨h0, t, rfl⟩
    have hh_mem : h0 ∈ parseable_times czi := by
      rw [← mem_np_sort, hst]
      simp
    have hhead_eq : h0 = a := by
      refine le_antisymm ?_ (hlba h0 hh_mem)
      have hmem : a ∈ np_sort (parseable_times czi) := (mem_np_sort _ _).mpr ha
      have := sorted_headD_le (np_sort (parseable_times czi)) hsorted a hmem
      rw [hst] at this
      simpa using this
    have hl_mem : (h0 :: t).getLastD 0 ∈ parseable_times czi := by
      rw [← mem_np_sort, hst]
      exact getLastD_mem (h0 :: t) (by simp) 0
    have hlast_eq : (h0 :: t).getLastD 0 = b := by
      refine le_antisymm (hubb _ hl_mem) ?_
      have hmem : b ∈ np_sort (parseable_times czi) := (mem_np_sort _ _).mpr hb
      have := sorted_le_getLastD (np_sort (parseable_times czi)) hsorted b hmem 0
      rw [hst] at this
      exact this
    rw [hst, hhead_eq] at hnlt
    simp only [elapsed_time_all_subblocks, hst]
    rw [List.headD_cons, hlast_eq, hhead_eq, if_neg hnlt]
    rfl

/-- A first-scene file with parseable timestamps `5` and `2` ms and one
unparseable subblock. -/
def exElapsedFile : AicsCziFile :=
  { subblocks :=
      [ { dims := [("S", 0), ("T", 0)], acq_time := some 5 }
      , { dims := [("S", 0), ("T", 1)], acq_time := none }
      , { dims := [("S", 0), ("T", 2)], acq_time := some 2 } ] }

/-- Witness for C8 at the concrete file: timestamps `[5, 2]` give
`max - min = 5 - 2`. -/
theorem elapsed_time_all_spec_witness :
    elapsed_time_all_subblocks exElapsedFile = some (5 - 2 : ℚ) :=
  (elapsed_time_all_spec exElapsedFile).2 2 5 (by decide) (by decide) (by decide)
    (by decide) (by decide)
